import Mathlib

/-!
Shallow embedding of the browser chat client in `frontend/js/chat.js`
(Summoners Reunion chat functionality).

The embedding models the `ChatState` class, `checkHealth`,
`handleSendMessage`, `streamChatResponse`, `clearHistory` and
`handleClearChat`.  Network outcomes (the fetch of the chat stream and
the health endpoint) are inputs to the functions; DOM side effects that
the spec talks about (error toasts via `showError`, message elements
appended to the messages container, `console.error` logging of bad
frames) are collected in an explicit `Effects` record.  Timestamps
(`new Date()`) are modelled as natural numbers supplied by the caller.
-/

namespace ChatClient

/-- Model of the JSON values produced by the platform `JSON.parse`,
restricted to what can appear in a stream-frame payload:  objects,
arrays, strings, numbers (kept as their lexeme), booleans and null. -/
inductive JsonVal where
  | str (s : String)
  | num (lexeme : String)
  | bool (b : Bool)
  | null
  | arr (xs : List JsonVal)
  | obj (fields : List (String × JsonVal))

/-- JSON whitespace characters. -/
def isJsonWs (c : Char) : Bool :=
  c = ' ' || c = '\t' || c = '\n' || c = '\r'

/-- Skip leading JSON whitespace. -/
def skipWs : List Char → List Char
  | [] => []
  | c :: cs => if isJsonWs c then skipWs cs else c :: cs

/-- Value of a hexadecimal digit, if any. -/
def hexVal (c : Char) : Option Nat :=
  if '0' ≤ c ∧ c ≤ '9' then some (c.toNat - '0'.toNat)
  else if 'a' ≤ c ∧ c ≤ 'f' then some (c.toNat - 'a'.toNat + 10)
  else if 'A' ≤ c ∧ c ≤ 'F' then some (c.toNat - 'A'.toNat + 10)
  else none

/-- Parse the body of a JSON string literal (the opening quote already
consumed), handling the escape sequences `JSON.parse` accepts; returns
the decoded characters and the rest of the input. -/
def parseStringBody (acc : List Char) : List Char → Option (List Char × List Char)
  | [] => none
  | '"' :: rest => some (acc.reverse, rest)
  | '\\' :: rest =>
    match rest with
    | [] => none
    | e :: rest' =>
      match e with
      | '"' => parseStringBody ('"' :: acc) rest'
      | '\\' => parseStringBody ('\\' :: acc) rest'
      | '/' => parseStringBody ('/' :: acc) rest'
      | 'b' => parseStringBody ('\x08' :: acc) rest'
      | 'f' => parseStringBody ('\x0c' :: acc) rest'
      | 'n' => parseStringBody ('\n' :: acc) rest'
      | 'r' => parseStringBody ('\r' :: acc) rest'
      | 't' => parseStringBody ('\t' :: acc) rest'
      | 'u' =>
        match rest' with
        | h1 :: h2 :: h3 :: h4 :: rest'' =>
          match hexVal h1, hexVal h2, hexVal h3, hexVal h4 with
          | some v1, some v2, some v3, some v4 =>
            parseStringBody (Char.ofNat (((v1 * 16 + v2) * 16 + v3) * 16 + v4) :: acc) rest''
          | _, _, _, _ => none
        | _ => none
      | _ => none
  | c :: rest => parseStringBody (c :: acc) rest

/-- Longest prefix of decimal digits. -/
def takeDigits : List Char → List Char × List Char
  | [] => ([], [])
  | c :: cs =>
    if c.isDigit then
      let (d, r) := takeDigits cs
      (c :: d, r)
    else ([], c :: cs)

/-- Parse a JSON number, returning its lexeme and the rest of the input. -/
def parseNumber (cs : List Char) : Option (List Char × List Char) :=
  let (sign, cs1) := match cs with
    | '-' :: t => (['-'], t)
    | _ => (([] : List Char), cs)
  let (intPart, cs2) := takeDigits cs1
  if intPart = [] then none
  else
    let (fracPart, cs3) := match cs2 with
      | '.' :: t =>
        let (d, r) := takeDigits t
        if d = [] then (([] : List Char), cs2) else ('.' :: d, r)
      | _ => (([] : List Char), cs2)
    let (expPart, cs4) := match cs3 with
      | 'e' :: t =>
        (match t with
         | '+' :: t' => (let (d, r) := takeDigits t'; if d = [] then (([] : List Char), cs3) else ('e' :: '+' :: d, r))
         | '-' :: t' => (let (d, r) := takeDigits t'; if d = [] then (([] : List Char), cs3) else ('e' :: '-' :: d, r))
         | _ => (let (d, r) := takeDigits t; if d = [] then (([] : List Char), cs3) else ('e' :: d, r)))
      | 'E' :: t =>
        (match t with
         | '+' :: t' => (let (d, r) := takeDigits t'; if d = [] then (([] : List Char), cs3) else ('E' :: '+' :: d, r))
         | '-' :: t' => (let (d, r) := takeDigits t'; if d = [] then (([] : List Char), cs3) else ('E' :: '-' :: d, r))
         | _ => (let (d, r) := takeDigits t; if d = [] then (([] : List Char), cs3) else ('E' :: d, r)))
      | _ => (([] : List Char), cs3)
    some (sign ++ intPart ++ fracPart ++ expPart, cs4)

mutual

/-- Fuel-bounded parser for a JSON value (model of `JSON.parse`). -/
def parseValue : Nat → List Char → Option (JsonVal × List Char)
  | 0, _ => none
  | fuel + 1, cs =>
    match skipWs cs with
    | [] => none
    | c :: rest =>
      if c = '\x7b' then parseObjFields fuel rest []
      else if c = '[' then parseArrElems fuel rest []
      else if c = '"' then
        match parseStringBody [] rest with
        | some (body, rest') => some (.str (String.mk body), rest')
        | none => none
      else if c = 't' then
        match rest with
        | 'r' :: 'u' :: 'e' :: rest' => some (.bool true, rest')
        | _ => none
      else if c = 'f' then
        match rest with
        | 'a' :: 'l' :: 's' :: 'e' :: rest' => some (.bool false, rest')
        | _ => none
      else if c = 'n' then
        match rest with
        | 'u' :: 'l' :: 'l' :: rest' => some (.null, rest')
        | _ => none
      else
        match parseNumber (c :: rest) with
        | some (lex, rest') => some (.num (String.mk lex), rest')
        | none => none

/-- Parse the members of a JSON object (opening brace already consumed). -/
def parseObjFields : Nat → List Char → List (String × JsonVal) → Option (JsonVal × List Char)
  | 0, _, _ => none
  | fuel + 1, cs, acc =>
    match skipWs cs with
    | [] => none
    | c :: rest =>
      if c = '\x7d' then some (.obj acc.reverse, rest)
      else if c = '"' then
        match parseStringBody [] rest with
        | some (key, rest') =>
          (match skipWs rest' with
           | ':' :: rest'' =>
             (match parseValue fuel rest'' with
              | some (v, rest''') =>
                (match skipWs rest''' with
                 | ',' :: rest4 => parseObjFields fuel rest4 ((String.mk key, v) :: acc)
                 | '\x7d' :: rest4 => some (.obj (((String.mk key, v)) :: acc).reverse, rest4)
                 | _ => none)
              | none => none)
           | _ => none)
        | none => none
      else none

/-- Parse the elements of a JSON array (opening bracket already consumed). -/
def parseArrElems : Nat → List Char → List JsonVal → Option (JsonVal × List Char)
  | 0, _, _ => none
  | fuel + 1, cs, acc =>
    match skipWs cs with
    | [] => none
    | c :: rest =>
      if c = ']' && acc.isEmpty then some (.arr [], rest)
      else
        match parseValue fuel cs with
        | some (v, rest') =>
          (match skipWs rest' with
           | ',' :: rest'' => parseArrElems fuel rest'' (v :: acc)
           | ']' :: rest'' => some (.arr (v :: acc).reverse, rest'')
           | _ => none)
        | none => none

end

/-- Model of the platform `JSON.parse` on a frame payload:  the whole
input must be a single JSON value surrounded only by whitespace. -/
def jsonParse (s : String) : Option JsonVal :=
  match parseValue (s.length + 1) s.data with
  | some (v, rest) => if skipWs rest = [] then some v else none
  | none => none

end ChatClient

namespace ChatClient

/-- JavaScript truthiness of a JSON value (false, null, 0 and the empty
string are falsy; objects and arrays are always truthy). -/
def jsTruthy : JsonVal → Bool
  | .str s => s ≠ ""
  | .bool b => b
  | .null => false
  | .num lexeme => (lexeme.data.takeWhile (fun c => c ≠ 'e' ∧ c ≠ 'E')).any (fun c => c.isDigit ∧ c ≠ '0')
  | .arr _ => true
  | .obj _ => true

/-- JavaScript property lookup `v.key` on a parsed JSON value:  `none`
models `undefined`.  On duplicate keys the last occurrence wins, as in
`JSON.parse`. -/
def getField (v : JsonVal) (key : String) : Option JsonVal :=
  match v with
  | .obj fields => fields.foldl (fun acc kv => if kv.1 = key then some kv.2 else acc) none
  | _ => none

/-- Truthiness of a possibly-absent property (`undefined` is falsy). -/
def fieldTruthy : Option JsonVal → Bool
  | none => false
  | some v => jsTruthy v

mutual

/-- JavaScript string coercion applied when `streamedContent += parsed.content`
meets a truthy non-string value (outside the documented frame schema,
which only ever carries a string). -/
def jsToString : JsonVal → String
  | .str s => s
  | .bool b => if b then "true" else "false"
  | .null => "null"
  | .num lexeme => lexeme
  | .arr xs => jsToStringList xs
  | .obj _ => "[object Object]"

def jsToStringList : List JsonVal → String
  | [] => ""
  | [x] => jsToString x
  | x :: y :: xs => jsToString x ++ "," ++ jsToStringList (y :: xs)

end

/-- Character-list prefix test (structural, used to model the
JavaScript `String.prototype.startsWith`). -/
def listStartsWith : List Char → List Char → Bool
  | [], _ => true
  | _ :: _, [] => false
  | p :: ps, c :: cs => p = c && listStartsWith ps cs

/-- Model of the JavaScript `line.startsWith(p)`. -/
def jsStartsWith (s p : String) : Bool :=
  listStartsWith p.data s.data

/-- Model of the JavaScript `s.substring(n)` (code points; the inputs
here are ASCII). -/
def jsSubstring (s : String) (n : Nat) : String :=
  String.mk (s.data.drop n)

/-- Model of the JavaScript `s.trim()`: strips leading and trailing
whitespace. -/
def jsTrim (s : String) : String :=
  String.mk ((((s.data.dropWhile Char.isWhitespace).reverse).dropWhile Char.isWhitespace).reverse)

/-- Helper for `jsSplitOnNewline`. -/
def splitNlAux : List Char → List Char → List String
  | [], acc => [String.mk acc.reverse]
  | c :: cs, acc =>
    if c = '\n' then String.mk acc.reverse :: splitNlAux cs []
    else splitNlAux cs (c :: acc)

/-- Model of the JavaScript `chunk.split('\n')`. -/
def jsSplitOnNewline (s : String) : List String :=
  splitNlAux s.data []

/-- Accumulator of the stream-consumption loop in `streamChatResponse`:
`content` is the JavaScript variable `streamedContent`, `logs` counts the
`console.error` calls made for frames whose payload fails to parse (the
`catch` around `JSON.parse`, also reached when the payload is `null`,
whose property access throws a TypeError). -/
structure StreamAcc where
  content : String
  logs : Nat
deriving DecidableEq, Repr

/-- One iteration of the `for (const line of lines)` body in
`streamChatResponse`:  only lines starting with the literal prefix are
significant; blank payloads are skipped; unparsable payloads are logged
and skipped; a payload with a truthy `done` is skipped; a truthy
`content` is appended to the accumulated text. -/
def processLine (acc : StreamAcc) (line : String) : StreamAcc :=
  if jsStartsWith line "data: " then
    let data := jsSubstring line 6
    if jsTrim data = "" then acc
    else
      match jsonParse data with
      | none => { acc with logs := acc.logs + 1 }
      | some .null => { acc with logs := acc.logs + 1 }
      | some v =>
        if fieldTruthy (getField v "done") then acc
        else
          match getField v "content" with
          | some cv =>
            if jsTruthy cv then { acc with content := acc.content ++ jsToString cv } else acc
          | none => acc
  else acc

/-- One iteration of the outer while-loop of `streamChatResponse`:  the
decoded chunk is split on newlines and every line is processed in order. -/
def chunkStep (a : StreamAcc) (c : String) : StreamAcc :=
  (jsSplitOnNewline c).foldl processLine a

/-- The full while-loop of `streamChatResponse` over the decoded chunks
delivered by the reader. -/
def streamAccum (chunks : List String) : StreamAcc :=
  chunks.foldl chunkStep ⟨"", 0⟩

/-- A chat message as built by `ChatState.addMessage`; the ISO timestamp
string is modelled as an abstract instant. -/
structure Message where
  role : String
  content : String
  timestamp : Nat
deriving DecidableEq, Repr

/-- The fields of the `ChatState` class that the modelled operations
read or write (`currentStreamingMessage` and `eventSource` are assigned
in the constructor and never used by any of them). -/
structure ChatState where
  conversationHistory : List Message
  isStreaming : Bool
  isHealthy : Bool
deriving DecidableEq, Repr

/-- The body of the POST issued to the chat-stream endpoint. -/
structure ChatRequest where
  message : String
  conversation_history : List Message
  use_knowledge_base : Bool
deriving DecidableEq, Repr

/-- Observable side effects of one send:  `notices` are the texts passed
to `showError`, `requests` the network calls issued, `displayed` the
(role, final content) of the message elements appended to the messages
container, `logs` the number of malformed-frame `console.error` calls. -/
structure Effects where
  notices : List String
  requests : List ChatRequest
  displayed : List (String × String)
  logs : Nat
deriving DecidableEq, Repr

/-- Outcome of the chat-stream fetch, supplied as an input:  either the
fetch rejects / returns a non-2xx status (both throw before any chunk is
read), or the reader delivers `chunks` and then either signals done
(`err = none`) or throws a transport error (`err = some emsg`). -/
inductive FetchOutcome where
  | fetchError (emsg : String)
  | stream (chunks : List String) (err : Option String)
deriving DecidableEq, Repr

/-- The fallback assistant text displayed on the error path. -/
def fallbackText : String := "Sorry, I encountered an error. Please try again."

/-- `state.isStreaming = true`, the first statement of `streamChatResponse`. -/
def beginStreaming (st : ChatState) : ChatState :=
  { st with isStreaming := true }

/-- Big-step model of `streamChatResponse(message)`:  sets `isStreaming`,
issues the POST, consumes the stream, commits the accumulated text as an
assistant message on the success path, and on any thrown error surfaces
a notice and displays the fallback message; the `finally` clause clears
`isStreaming` on every path.  `startTime` models the `Date` captured on
entry. -/
def streamChatResponse (message : String) (outcome : FetchOutcome) (startTime : Nat)
    (st : ChatState) : ChatState × Effects :=
  let st1 := beginStreaming st
  let req : ChatRequest := ⟨message, st1.conversationHistory, true⟩
  match outcome with
  | .fetchError emsg =>
    ({ st1 with isStreaming := false },
     ⟨["Failed to get response: " ++ emsg], [req], [("assistant", fallbackText)], 0⟩)
  | .stream chunks err =>
    let a := streamAccum chunks
    let streamedDisplay : List (String × String) :=
      if a.content = "" then [] else [("assistant", a.content)]
    match err with
    | some emsg =>
      ({ st1 with isStreaming := false },
       ⟨["Failed to get response: " ++ emsg], [req],
        streamedDisplay ++ [("assistant", fallbackText)], a.logs⟩)
    | none =>
      ({ st1 with
          conversationHistory := st1.conversationHistory ++ [⟨"assistant", a.content, startTime⟩],
          isStreaming := false },
       ⟨[], [req], streamedDisplay, a.logs⟩)

/-- Model of `handleSendMessage`:  reads and trims the input box, checks
the three preconditions (empty input returns silently; a send during
streaming or while unhealthy shows an error toast), then appends the
user message and delegates to `streamChatResponse`.  `now` models the
`Date` at which the user message is stamped and the stream starts. -/
def handleSendMessage (inputValue : String) (outcome : FetchOutcome) (now : Nat)
    (st : ChatState) : ChatState × Effects :=
  let message := jsTrim inputValue
  if message = "" then
    (st, ⟨[], [], [], 0⟩)
  else if st.isStreaming then
    (st, ⟨["Please wait for the current response to complete"], [], [], 0⟩)
  else if !st.isHealthy then
    (st, ⟨["Backend is offline. Please check your connection."], [], [], 0⟩)
  else
    let userMessage : Message := ⟨"user", message, now⟩
    let st1 := { st with conversationHistory := st.conversationHistory ++ [userMessage] }
    let r := streamChatResponse message outcome now st1
    (r.1, { r.2 with displayed := ("user", message) :: r.2.displayed })

/-- Outcome of the health fetch:  `failure` models a rejected fetch or a
body that is not JSON (both throw into the catch); otherwise the parsed
body's `bedrock_configured` truthiness and `status` field are given. -/
inductive HealthResponse where
  | failure
  | ok (bedrock_configured : Bool) (status : String)
deriving DecidableEq, Repr

/-- Model of `checkHealth`:  on success `isHealthy` becomes
`data.bedrock_configured && data.status === 'healthy'`; the catch sets it
false.  The function is total: no exception propagates. -/
def checkHealth (resp : HealthResponse) (st : ChatState) : ChatState :=
  match resp with
  | .failure => { st with isHealthy := false }
  | .ok bedrock status => { st with isHealthy := bedrock && status = "healthy" }

/-- `ChatState.clearHistory`. -/
def clearHistory (st : ChatState) : ChatState :=
  { st with conversationHistory := [] }

/-- Model of `handleClearChat`:  the `confirm` dialog's answer is an
input; only a confirmed clear resets the history. -/
def handleClearChat (confirmed : Bool) (st : ChatState) : ChatState :=
  if confirmed then clearHistory st else st

end ChatClient

namespace ChatClient

/-- A stream line whose payload the frame loop logs and skips:  it is a
significant (`data: `-prefixed, non-blank) line whose payload either
fails to parse or parses to `null` (whose property access throws into
the same catch). -/
def malformedLine (line : String) : Bool :=
  jsStartsWith line "data: " && !(jsTrim (jsSubstring line 6) == "") &&
    (match jsonParse (jsSubstring line 6) with
     | none => true
     | some .null => true
     | some _ => false)

lemma processLine_shift (acc : StreamAcc) (line : String) :
    processLine acc line =
      ⟨acc.content ++ (processLine ⟨"", 0⟩ line).content,
       acc.logs + (processLine ⟨"", 0⟩ line).logs⟩ := by
  by_cases h1 : jsStartsWith line "data: "
  · by_cases h2 : jsTrim (jsSubstring line 6) = ""
    · simp [processLine, h1, h2]
    · cases hp : jsonParse (jsSubstring line 6) with
      | none => simp [processLine, h1, h2, hp]
      | some v =>
        cases v with
        | null => simp [processLine, h1, h2, hp]
        | str s =>
          by_cases hd : fieldTruthy (getField (.str s) "done")
          · simp [processLine, h1, h2, hp, hd]
          · simp [processLine, h1, h2, hp, hd, getField]
        | num lx =>
          by_cases hd : fieldTruthy (getField (.num lx) "done")
          · simp [processLine, h1, h2, hp, hd]
          · simp [processLine, h1, h2, hp, hd, getField]
        | bool b =>
          by_cases hd : fieldTruthy (getField (.bool b) "done")
          · simp [processLine, h1, h2, hp, hd]
          · simp [processLine, h1, h2, hp, hd, getField]
        | arr xs =>
          by_cases hd : fieldTruthy (getField (.arr xs) "done")
          · simp [processLine, h1, h2, hp, hd]
          · simp [processLine, h1, h2, hp, hd, getField]
        | obj fields =>
          by_cases hd : fieldTruthy (getField (.obj fields) "done")
          · simp [processLine, h1, h2, hp, hd]
          · cases hc : getField (.obj fields) "content" with
            | none => simp [processLine, h1, h2, hp, hd, hc]
            | some cv =>
              by_cases ht : jsTruthy cv
              · simp [processLine, h1, h2, hp, hd, hc, ht]
              · simp [processLine, h1, h2, hp, hd, hc, ht]
  · simp [processLine, h1]

lemma foldl_processLine_shift (ls : List String) (acc : StreamAcc) :
    ls.foldl processLine acc =
      ⟨acc.content ++ (ls.foldl processLine ⟨"", 0⟩).content,
       acc.logs + (ls.foldl processLine ⟨"", 0⟩).logs⟩ := by
  induction ls generalizing acc with
  | nil => simp
  | cons l ls ih =>
    simp only [List.foldl_cons]
    rw [ih (processLine acc l), ih (processLine ⟨"", 0⟩ l), processLine_shift acc l,
      processLine_shift ⟨"", 0⟩ l]
    simp [String.append_assoc, Nat.add_assoc]

lemma chunkStep_shift (acc : StreamAcc) (c : String) :
    chunkStep acc c =
      ⟨acc.content ++ (chunkStep ⟨"", 0⟩ c).content, acc.logs + (chunkStep ⟨"", 0⟩ c).logs⟩ :=
  foldl_processLine_shift (jsSplitOnNewline c) acc

lemma foldl_chunkStep_shift (cs : List String) (acc : StreamAcc) :
    cs.foldl chunkStep acc =
      ⟨acc.content ++ (cs.foldl chunkStep ⟨"", 0⟩).content,
       acc.logs + (cs.foldl chunkStep ⟨"", 0⟩).logs⟩ := by
  induction cs generalizing acc with
  | nil => simp
  | cons c cs ih =>
    simp only [List.foldl_cons]
    rw [ih (chunkStep acc c), ih (chunkStep ⟨"", 0⟩ c), chunkStep_shift acc c]
    simp [String.append_assoc, Nat.add_assoc]

lemma streamAccum_append (xs ys : List String) :
    streamAccum (xs ++ ys) =
      ⟨(streamAccum xs).content ++ (streamAccum ys).content,
       (streamAccum xs).logs + (streamAccum ys).logs⟩ := by
  simp only [streamAccum, List.foldl_append]
  exact foldl_chunkStep_shift ys (xs.foldl chunkStep ⟨"", 0⟩)

lemma malformedLine_delta (line : String) (acc : StreamAcc)
    (h : malformedLine line = true) :
    processLine acc line = ⟨acc.content, acc.logs + 1⟩ := by
  simp only [malformedLine, Bool.and_eq_true, Bool.not_eq_true', beq_eq_false_iff_ne] at h
  obtain ⟨⟨h1, h2⟩, h3⟩ := h
  cases hp : jsonParse (jsSubstring line 6) with
  | none => simp [processLine, h1, h2, hp]
  | some v =>
    cases v with
    | null => simp [processLine, h1, h2, hp]
    | str s => rw [hp] at h3; simp at h3
    | num lx => rw [hp] at h3; simp at h3
    | bool b => rw [hp] at h3; simp at h3
    | arr xs => rw [hp] at h3; simp at h3
    | obj fields => rw [hp] at h3; simp at h3

lemma malformed_chunk_delta (bad : String)
    (h : ∀ l ∈ jsSplitOnNewline bad, malformedLine l = true) :
    streamAccum [bad] = ⟨"", (jsSplitOnNewline bad).length⟩ := by
  simp only [streamAccum, List.foldl_cons, List.foldl_nil, chunkStep]
  have key : ∀ (ls : List String), (∀ l ∈ ls, malformedLine l = true) →
      ∀ (acc : StreamAcc), ls.foldl processLine acc = ⟨acc.content, acc.logs + ls.length⟩ := by
    intro ls
    induction ls with
    | nil => intro _ acc; simp
    | cons l ls ih =>
      intro hl acc
      simp only [List.foldl_cons]
      rw [malformedLine_delta l acc (hl l (List.mem_cons_self l ls)),
        ih (fun x hx => hl x (List.mem_cons_of_mem l hx))]
      simp [Nat.add_assoc, Nat.add_comm 1 ls.length]
  rw [key (jsSplitOnNewline bad) h ⟨"", 0⟩]
  simp

end ChatClient

namespace ChatClient

/-- C1 counterexample: with a healthy, idle session, calling
`handleSendMessage` on input that is empty after trimming violates the
first precondition, yet no user-visible notice is surfaced (the empty
input is rejected silently), contrary to the claim. -/
theorem sendMessage_empty_input_silent_cex :
    (jsTrim "   " = "") ∧
    (handleSendMessage "   " (.stream [] none) 0 ⟨[], false, true⟩).2.notices = [] ∧
    (handleSendMessage "   " (.stream [] none) 0 ⟨[], false, true⟩).2.requests = [] :=
  ⟨rfl, rfl, rfl⟩

/-- C1 (amended): every precondition-violating call of `sendMessage`
(empty trimmed input, `isStreaming` true, or `isHealthy` false) is a
no-op on conversation state and performs no network call; a violation of
the `isStreaming` or `isHealthy` precondition surfaces exactly one
user-visible transient notice, while empty-after-trim input is rejected
silently, with no notice. -/
theorem sendMessage_precondition_violation_noop (inputValue : String) (outcome : FetchOutcome)
    (now : Nat) (st : ChatState)
    (h : jsTrim inputValue = "" ∨ st.isStreaming = true ∨ st.isHealthy = false) :
    (handleSendMessage inputValue outcome now st).1 = st ∧
    (handleSendMessage inputValue outcome now st).2.requests = [] ∧
    (handleSendMessage inputValue outcome now st).2.displayed = [] ∧
    (jsTrim inputValue = "" → (handleSendMessage inputValue outcome now st).2.notices = []) ∧
    (jsTrim inputValue ≠ "" →
      (handleSendMessage inputValue outcome now st).2.notices.length = 1) := by
  by_cases hm : jsTrim inputValue = ""
  · simp [handleSendMessage, hm]
  · have h2 : st.isStreaming = true ∨ st.isHealthy = false := by
      rcases h with h | h | h
      · exact absurd h hm
      · exact Or.inl h
      · exact Or.inr h
    rcases h2 with hs | hh
    · simp [handleSendMessage, hm, hs]
    · by_cases hs : st.isStreaming = true
      · simp [handleSendMessage, hm, hs]
      · simp only [Bool.not_eq_true] at hs
        simp [handleSendMessage, hm, hs, hh]

/-- C1 witness at a concrete violating input (send while streaming). -/
theorem sendMessage_precondition_violation_noop_witness :
    (handleSendMessage "hi" (.stream [] none) 0 ⟨[], true, true⟩).1 = ⟨[], true, true⟩ ∧
    (handleSendMessage "hi" (.stream [] none) 0 ⟨[], true, true⟩).2.requests = [] ∧
    (handleSendMessage "hi" (.stream [] none) 0 ⟨[], true, true⟩).2.displayed = [] ∧
    (jsTrim "hi" = "" → (handleSendMessage "hi" (.stream [] none) 0 ⟨[], true, true⟩).2.notices = []) ∧
    (jsTrim "hi" ≠ "" →
      (handleSendMessage "hi" (.stream [] none) 0 ⟨[], true, true⟩).2.notices.length = 1) :=
  sendMessage_precondition_violation_noop "hi" (.stream [] none) 0 ⟨[], true, true⟩
    (Or.inr (Or.inl rfl))

/-- C2: while `isStreaming` is true, `sendMessage` issues no network
request and leaves the whole session state — in particular the
conversation history — unchanged: the attempt is rejected, not queued. -/
theorem sendMessage_while_streaming_rejected (inputValue : String) (outcome : FetchOutcome)
    (now : Nat) (st : ChatState) (h : st.isStreaming = true) :
    (handleSendMessage inputValue outcome now st).1 = st ∧
    (handleSendMessage inputValue outcome now st).2.requests = [] := by
  by_cases hm : jsTrim inputValue = "" <;> simp [handleSendMessage, hm, h]

/-- C2 witness at a concrete in-flight session. -/
theorem sendMessage_while_streaming_rejected_witness :
    (handleSendMessage "again" (.stream [] none) 3 ⟨[⟨"user", "q", 0⟩], true, true⟩).1
      = ⟨[⟨"user", "q", 0⟩], true, true⟩ ∧
    (handleSendMessage "again" (.stream [] none) 3 ⟨[⟨"user", "q", 0⟩], true, true⟩).2.requests
      = [] :=
  sendMessage_while_streaming_rejected "again" (.stream [] none) 3 ⟨[⟨"user", "q", 0⟩], true, true⟩
    rfl

/-- C3 counterexample: a stream that errors after emitting the fragment
`Par` leaves the conversation history with only the user message — the
fallback assistant message is only displayed, never appended to the
conversation history, contrary to the claim. -/
theorem stream_error_fallback_not_in_history_cex :
    (handleSendMessage "Hi"
        (.stream ["data: \x7b\"content\":\"Par\"\x7d\n"] (some "network error")) 0
        ⟨[], false, true⟩).1.conversationHistory = [⟨"user", "Hi", 0⟩] := by
  rfl

/-- C3 (amended): any transport-level error during streaming terminates
the consumption loop, surfaces exactly one generic error notice, and
appends a single fallback assistant message to the displayed messages —
not to the conversation history, which is left unchanged; the partial
accumulated content remains displayed (when non-empty) but is not
committed; exactly one request was issued (no automatic retry); and the
session ends with `isStreaming` false. -/
theorem stream_transport_error_policy (message : String) (chunks : List String) (emsg : String)
    (startTime : Nat) (st : ChatState) :
    (streamChatResponse message (.stream chunks (some emsg)) startTime st).1.isStreaming = false ∧
    (streamChatResponse message (.stream chunks (some emsg)) startTime st).1.conversationHistory
      = st.conversationHistory ∧
    (streamChatResponse message (.stream chunks (some emsg)) startTime st).2.notices
      = ["Failed to get response: " ++ emsg] ∧
    (streamChatResponse message (.stream chunks (some emsg)) startTime st).2.displayed
      = (if (streamAccum chunks).content = "" then []
         else [("assistant", (streamAccum chunks).content)]) ++ [("assistant", fallbackText)] ∧
    (streamChatResponse message (.stream chunks (some emsg)) startTime st).2.requests.length
      = 1 :=
  ⟨rfl, rfl, rfl, rfl, rfl⟩

/-- C4: streaming the frames carrying `Hi`, ` there` and a completion
marker commits one assistant message whose content is exactly
`Hi there`: fragments are concatenated in arrival order. -/
theorem stream_fragments_concatenated_in_order (message : String) (t : Nat) (st : ChatState) :
    (streamChatResponse message
        (.stream ["data: \x7b\"content\":\"Hi\"\x7d\n\n",
                  "data: \x7b\"content\":\" there\"\x7d\n\n",
                  "data: \x7b\"done\": true\x7d\n\n"] none) t st).1.conversationHistory
      = st.conversationHistory ++ [⟨"assistant", "Hi there", t⟩] := by
  rfl

/-- C5 counterexample: a frame carrying the completion marker does not
end the stream-consumption loop — a content frame arriving after it is
still processed, so the committed assistant message is `B`, not the
empty content an ended loop would have committed. -/
theorem done_marker_does_not_end_loop_cex :
    (streamChatResponse "m"
        (.stream ["data: \x7b\"done\": true\x7d\n", "data: \x7b\"content\":\"B\"\x7d\n"] none) 0
        ⟨[], false, true⟩).1.conversationHistory = [⟨"assistant", "B", 0⟩] := by
  rfl

/-- C5 (amended): a frame whose payload carries a truthy completion
marker is skipped without altering the accumulated content or the log
count; it does not end the stream-consumption loop, which continues
until the transport signals end-of-stream. -/
theorem done_frame_skipped_without_altering_content (acc : StreamAcc) (line : String)
    (v : JsonVal) (h1 : jsStartsWith line "data: " = true)
    (h2 : jsonParse (jsSubstring line 6) = some v)
    (h3 : fieldTruthy (getField v "done") = true) :
    processLine acc line = acc := by
  by_cases htrim : jsTrim (jsSubstring line 6) = ""
  · simp [processLine, h1, htrim]
  · cases v with
    | null => simp [getField, fieldTruthy] at h3
    | str s => simp [getField, fieldTruthy] at h3
    | num lx => simp [getField, fieldTruthy] at h3
    | bool b => simp [getField, fieldTruthy] at h3
    | arr xs => simp [getField, fieldTruthy] at h3
    | obj fields => simp [processLine, h1, htrim, h2, h3]

/-- C5 witness at a concrete completion-marker frame. -/
theorem done_frame_skipped_without_altering_content_witness :
    processLine ⟨"Hi", 2⟩ "data: \x7b\"done\": true\x7d" = ⟨"Hi", 2⟩ :=
  done_frame_skipped_without_altering_content ⟨"Hi", 2⟩ "data: \x7b\"done\": true\x7d"
    (.obj [("done", .bool true)]) rfl rfl rfl

/-- C6: `checkHealth` sets `isHealthy` true exactly when the response
reports both status `healthy` and a configured backend; every other
combination, and any transport failure or malformed response, sets it
false (the function is total: no exception propagates). -/
theorem checkHealth_isHealthy_iff (resp : HealthResponse) (st : ChatState) :
    (checkHealth resp st).isHealthy = true ↔ resp = .ok true "healthy" := by
  cases resp with
  | failure => simp [checkHealth]
  | ok b s => simp [checkHealth]

/-- C7: a chunk consisting only of malformed frames, interleaved between
any prefix and suffix of the stream, does not truncate or alter the
content accumulated from the valid frames, and each of its frames is
logged exactly once. -/
theorem malformed_frames_logged_and_skipped (pre post : List String) (bad : String)
    (h : ∀ l ∈ jsSplitOnNewline bad, malformedLine l = true) :
    (streamAccum (pre ++ bad :: post)).content = (streamAccum (pre ++ post)).content ∧
    (streamAccum (pre ++ bad :: post)).logs
      = (streamAccum (pre ++ post)).logs + (jsSplitOnNewline bad).length := by
  have hbad := malformed_chunk_delta bad h
  have e1 : pre ++ bad :: post = (pre ++ [bad]) ++ post := by simp
  rw [e1, streamAccum_append (pre ++ [bad]) post, streamAccum_append pre [bad],
    streamAccum_append pre post, hbad]
  constructor
  · simp
  · simp
    omega

/-- C7 witness: a malformed frame between two valid content frames. -/
theorem malformed_frames_logged_and_skipped_witness :
    (streamAccum (["data: \x7b\"content\":\"A\"\x7d"] ++ "data: oops"
        :: ["data: \x7b\"content\":\"C\"\x7d"])).content
      = (streamAccum (["data: \x7b\"content\":\"A\"\x7d"]
          ++ ["data: \x7b\"content\":\"C\"\x7d"])).content ∧
    (streamAccum (["data: \x7b\"content\":\"A\"\x7d"] ++ "data: oops"
        :: ["data: \x7b\"content\":\"C\"\x7d"])).logs
      = (streamAccum (["data: \x7b\"content\":\"A\"\x7d"]
          ++ ["data: \x7b\"content\":\"C\"\x7d"])).logs
        + (jsSplitOnNewline "data: oops").length :=
  malformed_frames_logged_and_skipped ["data: \x7b\"content\":\"A\"\x7d"]
    ["data: \x7b\"content\":\"C\"\x7d"] "data: oops" (by decide)

/-- C8: a `sendMessage` call that passes its preconditions sets
`isStreaming` true on entering the stream (the first statement of
`streamChatResponse`) and resets it to false when the stream terminates
or errors, unconditionally on every outcome. -/
theorem sendMessage_streaming_flag_lifecycle (inputValue : String) (outcome : FetchOutcome)
    (now : Nat) (st : ChatState) (h1 : jsTrim inputValue ≠ "") (h2 : st.isStreaming = false)
    (h3 : st.isHealthy = true) :
    (beginStreaming st).isStreaming = true ∧
    (handleSendMessage inputValue outcome now st).1.isStreaming = false := by
  refine ⟨rfl, ?_⟩
  cases outcome with
  | fetchError e => simp [handleSendMessage, h1, h2, h3, streamChatResponse, beginStreaming]
  | stream chunks err =>
    cases err <;> simp [handleSendMessage, h1, h2, h3, streamChatResponse, beginStreaming]

/-- C8 witness on the failure path of a concrete send. -/
theorem sendMessage_streaming_flag_lifecycle_witness :
    (beginStreaming ⟨[], false, true⟩).isStreaming = true ∧
    (handleSendMessage "Hi" (.fetchError "boom") 0 ⟨[], false, true⟩).1.isStreaming = false :=
  sendMessage_streaming_flag_lifecycle "Hi" (.fetchError "boom") 0 ⟨[], false, true⟩
    (by decide) rfl rfl

/-- C9: a confirmed `clearHistory` empties the conversation history and
leaves `isHealthy` unchanged, whatever the previous history was. -/
theorem clearChat_confirmed_resets_history (st : ChatState) :
    (handleClearChat true st).conversationHistory = [] ∧
    (handleClearChat true st).isHealthy = st.isHealthy :=
  ⟨rfl, rfl⟩

/-- C10: if the stream reaches end-of-transport without any content
fragment having been accumulated, the success path still commits an
assistant message with empty content to the conversation history. -/
theorem empty_stream_commits_empty_assistant_message (message : String) (chunks : List String)
    (t : Nat) (st : ChatState) (h : (streamAccum chunks).content = "") :
    (streamChatResponse message (.stream chunks none) t st).1.conversationHistory
      = st.conversationHistory ++ [⟨"assistant", "", t⟩] := by
  simp [streamChatResponse, beginStreaming, h]

/-- C10 witness on a stream carrying only a completion marker and a
malformed frame. -/
theorem empty_stream_commits_empty_assistant_message_witness :
    (streamChatResponse "m" (.stream ["data: \x7b\"done\": true\x7d\n", "data: oops\n"] none) 4
        ⟨[], false, true⟩).1.conversationHistory = [⟨"assistant", "", 4⟩] :=
  empty_stream_commits_empty_assistant_message "m"
    ["data: \x7b\"done\": true\x7d\n", "data: oops\n"] 4 ⟨[], false, true⟩ (by rfl)

end ChatClient
